import Mathlib

/-!
Verification development for the bitget-history downloader.

This file gives a shallow embedding, in Lean 4, of the parts of the Go
sources that the checked properties talk about:

* the SQLite load step (`internal/db`): the `trades` table with its
  `INSERT OR IGNORE` policy keyed on the `trade_id` primary key, the depth
  tables `"1"`/`"2"` with their plain `INSERT` and autoincrement key, the
  drop-and-recreate of the depth tables at the start of `ProcessZipFiles`,
  and the skipping of zero-byte archives;
* archive validation (`CheckZipFile` in the current downloader, which
  accepts zero-byte files, and the older `checkZipFile`, which does not);
* the per-attempt body of `downloadWithProxy` (save, validate, delete on
  validation failure);
* the retry loop of `DownloadFiles` with its bad-proxy set, local-file
  skip check and aggregate `failedURLs` error;
* the existence probe `checkFileExists` (HEAD through a random proxy,
  bounded retry on network faults only);
* the trades batch enumeration and the depth branch of `GenerateURLs`
  (placeholder files for 403/404, skip of locally present artifacts);
* proxy validation (`checkProxy` / `checkProxies`: the IP-echo body must
  equal the host part of the proxy's own address);
* the database swap `MoveTempDatabase` (backup, copy, restore on failure).

File contents and network behaviour are modelled by explicit oracles:
a file is an optional byte list, an HTTP exchange is a constructor of an
event type, and structural Zip validity of a byte payload is an arbitrary
boolean function passed as a parameter.  Everything is computable so all
concrete runs evaluate by `decide`.
-/

/-! ## Database load step (internal/db, src/unnamed/part_002) -/

/-- Row of the `trades` table.  The REAL-typed columns are kept as the
CSV strings they are parsed from; their values never influence the insert
policy, which keys on `trade_id` alone. -/
structure TradeRow where
  tradeId : String
  timestamp : Int
  price : String
  side : String
  volumeQuote : String
  sizeBase : String
deriving DecidableEq, Repr

/-- Row of a depth table (`"1"` or `"2"`): timestamp plus best ask/bid
price and volume.  The autoincrement `id` column is the list position. -/
structure DepthRow where
  timestamp : Int
  askPrice : String
  bidPrice : String
  askVolume : String
  bidVolume : String
deriving DecidableEq, Repr

/-- One `INSERT OR IGNORE INTO trades ...` statement: `trade_id` is the
primary key, so a row whose key is already present is silently skipped
(`RowsAffected = 0`), otherwise the row is appended. -/
def insertOrIgnoreTrade (tbl : List TradeRow) (r : TradeRow) : List TradeRow :=
  if tbl.any (fun x => x.tradeId == r.tradeId) then tbl else tbl ++ [r]

/-- Body of `processTradesCSV` over the already-parsed, validated rows of
one converted archive: each row goes through `INSERT OR IGNORE`. -/
def processTradesRows (tbl : List TradeRow) (rows : List TradeRow) : List TradeRow :=
  rows.foldl insertOrIgnoreTrade tbl

/-- One plain `INSERT INTO "1"/"2" ...` statement of `processDepthCSV`:
the primary key is the autoincrement `id` and the index on `timestamp` is
not unique, so every row is appended unconditionally. -/
def insertDepth (tbl : List DepthRow) (r : DepthRow) : List DepthRow :=
  tbl ++ [r]

/-- Body of `processDepthCSV` over the parsed rows of one converted
archive for a fixed depth table. -/
def processDepthRows (tbl : List DepthRow) (rows : List DepthRow) : List DepthRow :=
  rows.foldl insertDepth tbl

/-- Depth load pass of `ProcessZipFiles`: the depth tables are dropped and
recreated empty before the archives are imported, so the prior contents of
the table never survive a pass. -/
def depthLoadPass (_tbl : List DepthRow) (rows : List DepthRow) : List DepthRow :=
  processDepthRows [] rows

/-- Keys of a trades table, in insertion order. -/
def tradeKeys (tbl : List TradeRow) : List String :=
  tbl.map TradeRow.tradeId

/-- Whether a trades table already holds a row with the given key
(the duplicate test made by the `trade_id` primary key). -/
def keyPresent (tbl : List TradeRow) (k : String) : Bool :=
  tbl.any (fun x => x.tradeId == k)

theorem keyPresent_insertOrIgnoreTrade_self (tbl : List TradeRow) (r : TradeRow) :
    keyPresent (insertOrIgnoreTrade tbl r) r.tradeId = true := by
  unfold insertOrIgnoreTrade keyPresent
  by_cases h : tbl.any (fun x => x.tradeId == r.tradeId) = true
  · rw [if_pos h]
    exact h
  · rw [if_neg h]
    simp [List.any_append]

theorem keyPresent_insertOrIgnoreTrade_mono (tbl : List TradeRow) (r : TradeRow)
    (k : String) (h : keyPresent tbl k = true) :
    keyPresent (insertOrIgnoreTrade tbl r) k = true := by
  unfold insertOrIgnoreTrade
  unfold keyPresent at h ⊢
  by_cases hc : tbl.any (fun x => x.tradeId == r.tradeId) = true
  · rw [if_pos hc]
    exact h
  · rw [if_neg hc]
    simp [List.any_append, h]

theorem keyPresent_processTradesRows_mono (rows : List TradeRow) (tbl : List TradeRow)
    (k : String) (h : keyPresent tbl k = true) :
    keyPresent (processTradesRows tbl rows) k = true := by
  induction rows generalizing tbl with
  | nil => simpa [processTradesRows]
  | cons r rest ih =>
      have step := keyPresent_insertOrIgnoreTrade_mono tbl r k h
      simpa [processTradesRows] using ih (insertOrIgnoreTrade tbl r) step

theorem keyPresent_processTradesRows_mem (rows : List TradeRow) (tbl : List TradeRow)
    (r : TradeRow) (hr : r ∈ rows) :
    keyPresent (processTradesRows tbl rows) r.tradeId = true := by
  induction rows generalizing tbl with
  | nil => cases hr
  | cons x rest ih =>
      rcases List.mem_cons.mp hr with rfl | hmem
      · have base := keyPresent_insertOrIgnoreTrade_self tbl r
        simpa [processTradesRows] using
          keyPresent_processTradesRows_mono rest (insertOrIgnoreTrade tbl r) r.tradeId base
      · simpa [processTradesRows] using ih (insertOrIgnoreTrade tbl x) hmem

theorem insertOrIgnoreTrade_of_present (tbl : List TradeRow) (r : TradeRow)
    (h : keyPresent tbl r.tradeId = true) :
    insertOrIgnoreTrade tbl r = tbl := by
  unfold insertOrIgnoreTrade
  unfold keyPresent at h
  simp [h]

theorem processTradesRows_of_all_present (rows : List TradeRow) (tbl : List TradeRow)
    (h : ∀ r ∈ rows, keyPresent tbl r.tradeId = true) :
    processTradesRows tbl rows = tbl := by
  induction rows with
  | nil => rfl
  | cons r rest ih =>
      have hr : keyPresent tbl r.tradeId = true := h r (List.mem_cons_self r rest)
      have hrest : ∀ x ∈ rest, keyPresent tbl x.tradeId = true :=
        fun x hx => h x (List.mem_cons_of_mem r hx)
      simp only [processTradesRows, List.foldl_cons]
      rw [insertOrIgnoreTrade_of_present tbl r hr]
      exact ih hrest

theorem tradeKeys_nodup_insertOrIgnoreTrade (tbl : List TradeRow) (r : TradeRow)
    (h : (tradeKeys tbl).Nodup) :
    (tradeKeys (insertOrIgnoreTrade tbl r)).Nodup := by
  unfold insertOrIgnoreTrade
  by_cases hc : tbl.any (fun x => x.tradeId == r.tradeId) = true
  · rw [if_pos hc]
    exact h
  · rw [if_neg hc]
    have hnot : r.tradeId ∉ tradeKeys tbl := by
      intro hmem
      rcases List.mem_map.mp hmem with ⟨x, hx, hk⟩
      have : tbl.any (fun x => x.tradeId == r.tradeId) = true :=
        List.any_eq_true.mpr ⟨x, hx, by simp [hk]⟩
      exact hc this
    unfold tradeKeys
    simp only [List.map_append, List.map_cons, List.map_nil]
    exact List.Nodup.append h (List.nodup_singleton _)
      (by
        intro a ha hb
        rcases List.mem_singleton.mp hb with rfl
        exact hnot ha)

theorem tradeKeys_nodup_processTradesRows (rows : List TradeRow) (tbl : List TradeRow)
    (h : (tradeKeys tbl).Nodup) :
    (tradeKeys (processTradesRows tbl rows)).Nodup := by
  induction rows generalizing tbl with
  | nil => simpa [processTradesRows]
  | cons r rest ih =>
      simpa [processTradesRows] using
        ih (insertOrIgnoreTrade tbl r) (tradeKeys_nodup_insertOrIgnoreTrade tbl r h)

/-- Claim C6 counterexample: `processDepthCSV` inserts with a plain
`INSERT` into a table whose primary key is the autoincrement `id`, so
loading the same one-row converted depth archive twice into the same depth
table doubles the row count and creates a duplicate timestamp, against the
claim that the row count stays that of a single load. -/
theorem depth_double_load_duplicates :
    (processDepthRows (processDepthRows [] [⟨1000, "50000", "49999", "1.0", "2.0"⟩])
        [⟨1000, "50000", "49999", "1.0", "2.0"⟩]).length = 2 ∧
    (processDepthRows ([] : List DepthRow) [⟨1000, "50000", "49999", "1.0", "2.0"⟩]).length = 1 ∧
    ¬ ((processDepthRows (processDepthRows [] [⟨1000, "50000", "49999", "1.0", "2.0"⟩])
        [⟨1000, "50000", "49999", "1.0", "2.0"⟩]).map DepthRow.timestamp).Nodup := by
  refine ⟨rfl, rfl, ?_⟩
  decide

/-- Claim C6, amended: re-loading the same converted archive is idempotent
for the trades table (the `trade_id` primary key plus `INSERT OR IGNORE`
leave the table unchanged on the second load, so the row count matches a
single load and no duplicate `trade_id` is ever created from a key-nodup
table), while for the depth tables idempotence holds only at the level of
a whole `ProcessZipFiles` pass, which drops and recreates the depth tables
before importing — a direct second `processDepthCSV` of the same archive
duplicates its rows. -/
theorem load_twice_idempotent (tbl : List TradeRow) (rows : List TradeRow)
    (dtbl : List DepthRow) (drows : List DepthRow)
    (hnd : (tradeKeys tbl).Nodup) :
    processTradesRows (processTradesRows tbl rows) rows = processTradesRows tbl rows ∧
    (tradeKeys (processTradesRows tbl rows)).Nodup ∧
    depthLoadPass (depthLoadPass dtbl drows) drows = depthLoadPass dtbl drows := by
  refine ⟨?_, tradeKeys_nodup_processTradesRows rows tbl hnd, rfl⟩
  exact processTradesRows_of_all_present rows (processTradesRows tbl rows)
    (fun r hr => keyPresent_processTradesRows_mem rows tbl r hr)

/-- Claim C6 witness: the amended idempotence at a concrete table and
archive. -/
theorem load_twice_idempotent_witness :
    processTradesRows
        (processTradesRows [⟨"T0", 5, "1", "buy", "1", "1"⟩]
          [⟨"T1", 1000, "50000", "buy", "1.0", "0.00002"⟩])
        [⟨"T1", 1000, "50000", "buy", "1.0", "0.00002"⟩] =
      processTradesRows [⟨"T0", 5, "1", "buy", "1", "1"⟩]
        [⟨"T1", 1000, "50000", "buy", "1.0", "0.00002"⟩] ∧
    (tradeKeys (processTradesRows [⟨"T0", 5, "1", "buy", "1", "1"⟩]
        [⟨"T1", 1000, "50000", "buy", "1.0", "0.00002"⟩])).Nodup ∧
    depthLoadPass (depthLoadPass [] [⟨7, "1", "2", "3", "4"⟩]) [⟨7, "1", "2", "3", "4"⟩] =
      depthLoadPass [] [⟨7, "1", "2", "3", "4"⟩] :=
  load_twice_idempotent [⟨"T0", 5, "1", "buy", "1", "1"⟩]
    [⟨"T1", 1000, "50000", "buy", "1.0", "0.00002"⟩]
    [] [⟨7, "1", "2", "3", "4"⟩] (by decide)

/-! ## Archive validation and ProcessZipFiles (src/unnamed/part_001, part_002)

A local file is `Option (List Nat)`: `none` when nothing exists at the
path, `some c` when a file with byte content `c` does.  Structural Zip
validity of a byte payload is an arbitrary `zipOk : List Nat → Bool`
parameter standing for `zip.OpenReader` succeeding. -/

/-- Older `checkZipFile` (internal/downloader/downloader.go): open the
file as a Zip; any open error (including a missing file) is an error. -/
def checkZipFile (zipOk : List Nat → Bool) (file : Option (List Nat)) : Bool :=
  match file with
  | none => false
  | some c => zipOk c

/-- Current `CheckZipFile` (src/unnamed/part_001): `os.Stat` first — a
missing file is an error, a zero-byte file is accepted without being
opened as a Zip, otherwise the file is opened as a Zip. -/
def CheckZipFile (zipOk : List Nat → Bool) (file : Option (List Nat)) : Bool :=
  match file with
  | none => false
  | some c => if c.length = 0 then true else zipOk c

/-- Archive handed to `ProcessZipFiles`: its `os.Stat` size and the table
rows its CSV payload would contribute. -/
structure ZipFile where
  size : Nat
  rows : List DepthRow
deriving DecidableEq, Repr

/-- File loop of `ProcessZipFiles`: a zero-byte archive is skipped
(`continue`) before `processSingleZip` runs; otherwise the archive is
processed by `proc` (a `processSingleZip` failure that skips the archive
is a `proc` that returns the table unchanged). -/
def processZipFilesLoop (proc : List DepthRow → ZipFile → List DepthRow) :
    List DepthRow → List ZipFile → List DepthRow
  | tbl, [] => tbl
  | tbl, z :: rest =>
      if z.size = 0 then processZipFilesLoop proc tbl rest
      else processZipFilesLoop proc (proc tbl z) rest

/-- Claim C10: a zero-byte file always passes `CheckZipFile` (it returns
nil without opening the file as a Zip — the result does not depend on the
Zip reader at all), and the `ProcessZipFiles` loop skips every zero-byte
archive, so such an archive contributes no rows: an empty depth
placeholder is never treated as corrupt. -/
theorem empty_file_valid_and_skipped :
    (∀ zipOk : List Nat → Bool, CheckZipFile zipOk (some []) = true) ∧
    (∀ (proc : List DepthRow → ZipFile → List DepthRow) (tbl : List DepthRow)
        (rows : List DepthRow) (rest : List ZipFile),
      processZipFilesLoop proc tbl (⟨0, rows⟩ :: rest) = processZipFilesLoop proc tbl rest) := by
  constructor
  · intro zipOk
    rfl
  · intro proc tbl rows rest
    rfl

/-! ## Download attempt: downloadWithProxy (internal/downloader/downloader.go 144-209)

One download attempt for one resource through one proxy.  The HTTP
exchange is an oracle event: a network-level error before any byte of the
body is written, a complete response with a status code and body, or a
response whose body copy fails after a prefix `pre` of the body has been
written to the newly created output file. -/

/-- Outcome of the HTTP exchange of one attempt, as seen by
`downloadWithProxy`. -/
inductive HttpEv where
  | netError
  | status (code : Nat) (body : List Nat)
  | bodyErr (pre : List Nat)
deriving DecidableEq, Repr

/-- Whether the event is a mid-copy body failure. -/
def HttpEv.isBodyErr : HttpEv → Bool
  | .bodyErr _ => true
  | _ => false

/-- Body of `downloadWithProxy`: request errors and non-200 statuses
return before the output file is created; a 200 response creates
(truncates) the file and copies the body into it; a copy error returns
with the partial file in place; after a full copy, `checkZipFile` is run
and on validation failure the file is removed.  Returns
(error returned?, file at the output path afterwards), given the file
previously at that path. -/
def downloadWithProxy (zipOk : List Nat → Bool) (f0 : Option (List Nat))
    (ev : HttpEv) : Bool × Option (List Nat) :=
  match ev with
  | .netError => (true, f0)
  | .bodyErr pre => (true, some pre)
  | .status code body =>
      if code ≠ 200 then (true, f0)
      else if checkZipFile zipOk (some body) then (false, some body)
      else (true, none)

/-- Zip validity used in concrete counterexamples: a Zip archive is at
least 22 bytes (the end-of-central-directory record), so a 1-byte payload
is structurally invalid. -/
def zipOkMinSize (c : List Nat) : Bool :=
  decide (22 ≤ c.length)

/-- Claim C1 counterexample: an attempt whose body copy fails after one
byte has been written (`io.Copy` returns an error) returns the error
without removing the output file, leaving at the resolved output path a
committed one-byte artifact that fails Zip validation — against the claim
that after any finished attempt the path holds a validated artifact or
nothing. -/
theorem partial_artifact_left_after_copy_failure :
    downloadWithProxy zipOkMinSize none (.bodyErr [0]) = (true, some [0]) ∧
    checkZipFile zipOkMinSize (some [0]) = false := by
  constructor
  · rfl
  · rfl

/-- Claim C1, amended: for every attempt that does not fail in the middle
of the body copy, the invariant holds — a successful attempt leaves a
Zip-valid artifact at the output path, an artifact failing Zip validation
is deleted and the attempt reports failure, and any other failed attempt
leaves the path exactly as it was; only a mid-copy `io.Copy` failure
leaves a partially written artifact in place. -/
theorem download_attempt_commits_valid_or_nothing (zipOk : List Nat → Bool)
    (f0 : Option (List Nat)) (ev : HttpEv) (h : ev.isBodyErr = false) :
    ((downloadWithProxy zipOk f0 ev).1 = false →
      ∃ b, (downloadWithProxy zipOk f0 ev).2 = some b ∧ zipOk b = true) ∧
    ((downloadWithProxy zipOk f0 ev).1 = true →
      (downloadWithProxy zipOk f0 ev).2 = f0 ∨ (downloadWithProxy zipOk f0 ev).2 = none) ∧
    (∀ body, ev = .status 200 body → zipOk body = false →
      downloadWithProxy zipOk f0 ev = (true, none)) := by
  cases ev with
  | netError =>
      refine ⟨?_, ?_, ?_⟩
      · intro hc
        simp [downloadWithProxy] at hc
      · intro _
        exact Or.inl rfl
      · intro body hev
        cases hev
  | bodyErr pre => cases h
  | status code body =>
      by_cases hcode : code = 200
      · subst hcode
        by_cases hz : zipOk body = true
        · refine ⟨?_, ?_, ?_⟩
          · intro _
            exact ⟨body, by simp [downloadWithProxy, checkZipFile, hz], hz⟩
          · intro hc
            simp [downloadWithProxy, checkZipFile, hz] at hc
          · intro b hev hzf
            cases hev
            rw [hz] at hzf
            cases hzf
        · have hz' : zipOk body = false := by
            cases hb : zipOk body
            · rfl
            · exact absurd hb hz
          refine ⟨?_, ?_, ?_⟩
          · intro hc
            simp [downloadWithProxy, checkZipFile, hz'] at hc
          · intro _
            exact Or.inr (by simp [downloadWithProxy, checkZipFile, hz'])
          · intro b hev hzf
            cases hev
            simp [downloadWithProxy, checkZipFile, hz']
      · refine ⟨?_, ?_, ?_⟩
        · intro hc
          simp [downloadWithProxy, hcode] at hc
        · intro _
          exact Or.inl (by simp [downloadWithProxy, hcode])
        · intro b hev hzf
          cases hev
          exact absurd rfl hcode

/-- Claim C1 witness: the amended invariant at a concrete successful
attempt (200 response with a 22-byte body accepted by the validator) —
the attempt commits the validated artifact. -/
theorem download_attempt_commits_valid_or_nothing_witness :
    (HttpEv.status 200 (List.replicate 22 7)).isBodyErr = false ∧
    ((downloadWithProxy zipOkMinSize none (.status 200 (List.replicate 22 7))).1 = false →
      ∃ b, (downloadWithProxy zipOkMinSize none (.status 200 (List.replicate 22 7))).2 = some b ∧
        zipOkMinSize b = true) :=
  ⟨by decide,
    (download_attempt_commits_valid_or_nothing zipOkMinSize none
      (.status 200 (List.replicate 22 7)) (by decide)).1⟩

/-! ## Existence probe: checkFileExists (src/unnamed/part_008, 485-553)

Each loop iteration issues a HEAD request through a random proxy; the
oracle `att i` says how attempt `i` went: a network-level error (invalid
proxy, dial failure, timeout — everything that sets `lastErr` and
continues), or a response with a status code and the raw value of the
Content-Length header (the empty string when the header is absent, as
`Header.Get` returns). -/

/-- Outcome of one HEAD attempt as seen by `checkFileExists`. -/
inductive ProbeAttempt where
  | netError
  | response (code : Nat) (header : String)
deriving DecidableEq, Repr

/-- Result of `checkFileExists`: (exists, size, error) collapsed to the
three shapes the function can return. -/
inductive ProbeResult where
  | found (size : Int)
  | absent
  | failed
deriving DecidableEq, Repr

/-- Decimal digit test of `strconv.ParseInt` (base 10). -/
def isGoDigit (c : Char) : Bool :=
  decide (48 ≤ c.toNat) && decide (c.toNat ≤ 57)

/-- Value of a digit string, most significant digit first. -/
def digitsVal (cs : List Char) : Nat :=
  cs.foldl (fun a c => a * 10 + (c.toNat - 48)) 0

/-- Go `strconv.ParseInt(s, 10, 64)` with the error discarded, as in
`contentLength, _ := strconv.ParseInt(...)`: the empty string and any
syntactically invalid string give 0, an in-range decimal gives its value,
and an out-of-range decimal is clamped to the int64 limit. -/
def goParseInt64 (s : String) : Int :=
  match s.data with
  | [] => 0
  | c :: rest =>
      let ds := if c = '-' ∨ c = '+' then rest else c :: rest
      if ds.isEmpty then 0
      else if ds.all isGoDigit then
        let v := digitsVal ds
        if c = '-' then
          if v ≤ 2 ^ 63 then -(v : Int) else -(2 ^ 63)
        else
          if v < 2 ^ 63 then (v : Int) else 2 ^ 63 - 1
      else 0

/-- Attempt loop of `checkFileExists`, `fuel` attempts remaining and `i`
the index of the current attempt: a network error retries with a fresh
random proxy, a response in [200,400) returns exists with the parsed
Content-Length, a response in [400,∞) returns a definitive absence at
once, and exhausting the attempts returns the error result. -/
def probeLoop (att : Nat → ProbeAttempt) : Nat → Nat → ProbeResult
  | 0, _ => .failed
  | fuel + 1, i =>
      match att i with
      | .netError => probeLoop att fuel (i + 1)
      | .response code header =>
          if 200 ≤ code ∧ code < 400 then .found (goParseInt64 header)
          else if 400 ≤ code then .absent
          else probeLoop att fuel (i + 1)

/-- Body of `checkFileExists` with its `maxAttempts := 3`. -/
def checkFileExists (att : Nat → ProbeAttempt) : ProbeResult :=
  probeLoop att 3 0

theorem probeLoop_response_settles (att : Nat → ProbeAttempt) :
    ∀ (fuel i k : Nat) (code : Nat) (header : String),
      k < fuel → (∀ j, j < k → att (i + j) = .netError) →
      att (i + k) = .response code header → 200 ≤ code →
      probeLoop att fuel i =
        (if code < 400 then ProbeResult.found (goParseInt64 header) else ProbeResult.absent) := by
  intro fuel
  induction fuel with
  | zero =>
      intro i k code header hk
      exact absurd hk (Nat.not_lt_zero k)
  | succ fuel ih =>
      intro i k code header hk hnet hresp hcode
      cases k with
      | zero =>
          have hi : att i = .response code header := by simpa using hresp
          simp only [probeLoop, hi]
          by_cases hlt : code < 400
          · rw [if_pos ⟨hcode, hlt⟩, if_pos hlt]
          · have h400 : 400 ≤ code := Nat.le_of_not_lt hlt
            rw [if_neg (fun hc => hlt hc.2), if_pos h400, if_neg hlt]
      | succ k =>
          have hi : att i = .netError := by simpa using hnet 0 (Nat.succ_pos k)
          have hshift : ∀ j, j < k → att (i + 1 + j) = .netError := by
            intro j hj
            have := hnet (j + 1) (Nat.succ_lt_succ hj)
            simpa [Nat.add_assoc, Nat.add_comm 1 j] using this
          have hresp' : att (i + 1 + k) = .response code header := by
            have : i + 1 + k = i + (k + 1) := by omega
            rw [this]
            exact hresp
          simp only [probeLoop, hi]
          exact ih (i + 1) k code header (Nat.lt_of_succ_lt_succ hk) hshift hresp' hcode

theorem probeLoop_all_netError (att : Nat → ProbeAttempt) :
    ∀ (fuel i : Nat), (∀ j, j < fuel → att (i + j) = .netError) →
      probeLoop att fuel i = .failed := by
  intro fuel
  induction fuel with
  | zero =>
      intro i _
      rfl
  | succ fuel ih =>
      intro i hnet
      have hi : att i = .netError := by simpa using hnet 0 (Nat.succ_pos fuel)
      have hshift : ∀ j, j < fuel → att (i + 1 + j) = .netError := by
        intro j hj
        have := hnet (j + 1) (Nat.succ_lt_succ hj)
        simpa [Nat.add_assoc, Nat.add_comm 1 j] using this
      simp only [probeLoop, hi]
      exact ih (i + 1) hshift

theorem probeLoop_failed_all_netError (att : Nat → ProbeAttempt) :
    ∀ (fuel i : Nat),
      (∀ j code header, j < fuel → att (i + j) = .response code header → 200 ≤ code) →
      probeLoop att fuel i = .failed →
      ∀ j, j < fuel → att (i + j) = .netError := by
  intro fuel
  induction fuel with
  | zero =>
      intro i _ _ j hj
      exact absurd hj (Nat.not_lt_zero j)
  | succ fuel ih =>
      intro i hmin hfail j hj
      cases hatt : att i with
      | netError =>
          cases j with
          | zero => simpa using hatt
          | succ j =>
              have hfail' : probeLoop att fuel (i + 1) = .failed := by
                have := hfail
                rw [probeLoop, hatt] at this
                exact this
              have hmin' : ∀ j code header, j < fuel →
                  att (i + 1 + j) = .response code header → 200 ≤ code := by
                intro j code header hjf hr
                refine hmin (j + 1) code header (Nat.succ_lt_succ hjf) ?_
                have : i + (j + 1) = i + 1 + j := by omega
                rw [this]
                exact hr
              have := ih (i + 1) hmin' hfail' j (Nat.lt_of_succ_lt_succ hj)
              have heq : i + 1 + j = i + (j + 1) := by omega
              rw [heq] at this
              exact this
      | response code header =>
          exfalso
          have hcode : 200 ≤ code := hmin 0 code header (Nat.succ_pos fuel) (by simpa using hatt)
          have := hfail
          simp only [probeLoop, hatt] at this
          by_cases hlt : code < 400
          · rw [if_pos ⟨hcode, hlt⟩] at this
            cases this
          · rw [if_neg (fun hc => hlt hc.2), if_pos (Nat.le_of_not_lt hlt)] at this
            cases this

/-- Claim C2: provided the HTTP client only ever surfaces final status
codes (≥ 200, as net/http does for a plain HEAD request), the probe
settles on the first attempt that gets a response — a status in [200,400)
yields the exists result with the size parsed from the Content-Length
header (absent and unparsable headers give 0, never an error), a status
in [400,∞) yields the definitive does-not-exist result immediately with
no further attempts — and the probe returns its error result exactly when
all 3 attempts end in network-level errors, so only those consume the
bounded retries. -/
theorem probe_semantics (att : Nat → ProbeAttempt)
    (hmin : ∀ j code header, j < 3 → att j = .response code header → 200 ≤ code) :
    (∀ k code header, k < 3 → (∀ j, j < k → att j = .netError) →
      att k = .response code header →
      checkFileExists att =
        (if code < 400 then ProbeResult.found (goParseInt64 header) else ProbeResult.absent)) ∧
    (checkFileExists att = .failed ↔ ∀ j, j < 3 → att j = .netError) ∧
    goParseInt64 "" = 0 ∧ goParseInt64 "12x" = 0 ∧ goParseInt64 "1234" = 1234 := by
  refine ⟨?_, ⟨?_, ?_⟩, by decide, by decide, by decide⟩
  · intro k code header hk hnet hresp
    exact probeLoop_response_settles att 3 0 k code header hk (by simpa using hnet)
      (by simpa using hresp) (hmin k code header hk hresp)
  · intro hfail j hj
    have := probeLoop_failed_all_netError att 3 0 (by simpa using hmin) hfail j hj
    simpa using this
  · intro hnet
    exact probeLoop_all_netError att 3 0 (by simpa using hnet)

/-- Claim C2 witness: a concrete probe whose first attempt is a network
error and whose second attempt answers 404 — the probe reports a
definitive absence. -/
theorem probe_semantics_witness :
    checkFileExists
        (fun i => if i = 0 then .netError else .response 404 "") = ProbeResult.absent := by
  have h := (probe_semantics (fun i => if i = 0 then .netError else .response 404 "")
      (by
        intro j code header hj hr
        by_cases hz : j = 0
        · subst hz
          simp at hr
        · simp [hz] at hr
          omega)).1
  have := h 1 404 "" (by omega)
    (by
      intro j hj
      have hz : j = 0 := by omega
      simp [hz])
    (by simp)
  simpa using this

/-! ## Trades enumeration: GenerateURLs trades branch (internal/cmdutils/utils.go 24-111)

For one day and one market code the loop probes sequence numbers 1..999
in batches (`startNum += 10` in the source; the step is kept as a
parameter `b` to show independence from the batch size).  Every number of
a batch is probed concurrently; numbers whose status is 200 are appended
under the mutex, any number with a non-200 status sets `stopBatch`, a
probe error does neither; after the batch completes, `stopBatch` ends the
day.  The oracle `probe n` is the `CheckFileOnline` outcome for number
`n`: `none` for an error, `some code` for a status code. -/

/-- Numbers of the batch `startNum .. endNum` (inclusive). -/
def batchNums (startNum endNum : Nat) : List Nat :=
  List.range' startNum (endNum + 1 - startNum)

/-- Day loop of the trades branch of `GenerateURLs`, generalized over the
batch step `b` (10 in the source).  `fuel` bounds the number of batches
(999 in the caller is enough for every positive `b`); `acc` is the URL
list accumulated so far. -/
def tradesDayLoop (probe : Nat → Option Nat) (b : Nat) :
    Nat → Nat → List Nat → List Nat
  | 0, _, acc => acc
  | fuel + 1, startNum, acc =>
      if startNum ≤ 999 then
        let endNum := min (startNum + (b - 1)) 999
        let batch := batchNums startNum endNum
        let acc' := acc ++ batch.filter (fun n => probe n == some 200)
        if batch.any (fun n =>
            match probe n with
            | some code => code != 200
            | none => false) then acc'
        else tradesDayLoop probe b fuel (startNum + b) acc'
      else acc

/-- Trades enumeration for one day with batch step `b`. -/
def tradesDayEnum (probe : Nat → Option Nat) (b : Nat) : List Nat :=
  tradesDayLoop probe b 999 1 []

/-- Probe oracle of the C3 scenario: resources 1..7 exist (status 200),
every other number answers 404, and no probe errors. -/
def probeSevenOracle (n : Nat) : Option Nat :=
  some (if n ≤ 7 then 200 else 404)

theorem probeSevenOracle_filter (s e : Nat) (he : 8 ≤ e) :
    (batchNums s e).filter (fun n => probeSevenOracle n == some 200) =
      List.range' s (8 - s) := by
  unfold batchNums
  by_cases hs : s ≤ 8
  · have hsplit : List.range' s (8 - s) ++ List.range' (s + (8 - s)) (e + 1 - 8) =
        List.range' s (e + 1 - s) := by
      rw [List.range'_append_1]
      congr 1
      omega
    rw [← hsplit, List.filter_append]
    have h1 : (List.range' s (8 - s)).filter (fun n => probeSevenOracle n == some 200) =
        List.range' s (8 - s) := by
      apply List.filter_eq_self.mpr
      intro a ha
      have hb := List.mem_range'_1.mp ha
      have ha7 : a ≤ 7 := by omega
      simp [probeSevenOracle, ha7]
    have h2 : (List.range' (s + (8 - s)) (e + 1 - 8)).filter
        (fun n => probeSevenOracle n == some 200) = [] := by
      apply List.filter_eq_nil_iff.mpr
      intro a ha
      have hb := List.mem_range'_1.mp ha
      have ha8 : ¬ a ≤ 7 := by omega
      simp [probeSevenOracle, ha8]
    rw [h1, h2, List.append_nil]
  · have h8 : 8 - s = 0 := by omega
    rw [h8]
    apply List.filter_eq_nil_iff.mpr
    intro a ha
    have hb := List.mem_range'_1.mp ha
    have ha8 : ¬ a ≤ 7 := by omega
    simp [probeSevenOracle, ha8]

theorem probeSevenOracle_filter_low (s e : Nat) (he : e ≤ 7) :
    (batchNums s e).filter (fun n => probeSevenOracle n == some 200) = batchNums s e := by
  apply List.filter_eq_self.mpr
  intro a ha
  have hb := List.mem_range'_1.mp ha
  have ha7 : a ≤ 7 := by omega
  simp [probeSevenOracle, ha7]

theorem probeSevenOracle_stop (s e : Nat) (hs : s ≤ 8) (he : 8 ≤ e) :
    (batchNums s e).any (fun n =>
      match probeSevenOracle n with
      | some code => code != 200
      | none => false) = true := by
  apply List.any_eq_true.mpr
  refine ⟨8, ?_, ?_⟩
  · apply List.mem_range'_1.mpr
    constructor
    · exact hs
    · omega
  · simp [probeSevenOracle]

theorem probeSevenOracle_no_stop (s e : Nat) (he : e ≤ 7) :
    (batchNums s e).any (fun n =>
      match probeSevenOracle n with
      | some code => code != 200
      | none => false) = false := by
  apply List.any_eq_false.mpr
  intro a ha
  have hb := List.mem_range'_1.mp ha
  have ha7 : a ≤ 7 := by
    unfold batchNums at ha
    have := List.mem_range'_1.mp ha
    omega
  simp [probeSevenOracle, ha7]

theorem tradesDayLoop_seven (b : Nat) (hb : 1 ≤ b) :
    ∀ (fuel startNum : Nat) (acc : List Nat), 1 ≤ startNum → startNum ≤ 8 →
      8 - startNum < fuel →
      tradesDayLoop probeSevenOracle b fuel startNum acc =
        acc ++ List.range' startNum (8 - startNum) := by
  intro fuel
  induction fuel with
  | zero =>
      intro startNum acc _ hs8 hf
      omega
  | succ fuel ih =>
      intro startNum acc hs1 hs8 hf
      have hle : startNum ≤ 999 := by omega
      simp only [tradesDayLoop, if_pos hle]
      set endNum := min (startNum + (b - 1)) 999 with hend
      have hestart : startNum ≤ endNum := by omega
      by_cases hcase : 8 ≤ endNum
      · rw [if_pos (probeSevenOracle_stop startNum endNum hs8 hcase)]
        rw [probeSevenOracle_filter startNum endNum hcase]
      · have he7 : endNum ≤ 7 := by omega
        have hstop := probeSevenOracle_no_stop startNum endNum he7
        rw [if_neg (by simp [hstop])]
        have hen : endNum = startNum + (b - 1) := by omega
        have hnext8 : startNum + b ≤ 8 := by omega
        rw [probeSevenOracle_filter_low startNum endNum he7]
        rw [ih (startNum + b) _ (by omega) hnext8 (by omega)]
        rw [List.append_assoc]
        congr 1
        unfold batchNums
        have hm : endNum + 1 - startNum = b := by omega
        rw [hm, List.range'_append_1]
        congr 1
        omega

/-- Claim C3: for a day on which resources 1..7 exist upstream and all
higher numbers (in particular 8) do not, the trades enumeration collects
exactly 1..7 — whatever positive batch step is used in place of the
source's 10, the first batch that reaches a missing number appends only
its existing members and then stops the day. -/
theorem trades_enum_seven (b : Nat) (hb : 1 ≤ b) :
    tradesDayEnum probeSevenOracle b = [1, 2, 3, 4, 5, 6, 7] ∧
    (∀ n, n ∈ tradesDayEnum probeSevenOracle b ↔ (1 ≤ n ∧ n ≤ 7)) := by
  have h := tradesDayLoop_seven b hb 999 1 [] (by omega) (by omega) (by omega)
  have hrange : List.range' 1 7 = [1, 2, 3, 4, 5, 6, 7] := by decide
  constructor
  · unfold tradesDayEnum
    rw [h]
    simpa using hrange
  · intro n
    unfold tradesDayEnum
    rw [h]
    simp only [List.nil_append]
    rw [show (8 : Nat) - 1 = 7 from rfl]
    rw [List.mem_range'_1]
    omega

/-- Claim C3 witness: the scenario at the source's batch size 10 — the
enumeration returns exactly 1..7. -/
theorem trades_enum_seven_witness :
    tradesDayEnum probeSevenOracle 10 = [1, 2, 3, 4, 5, 6, 7] :=
  (trades_enum_seven 10 (by decide)).1

/-! ## Download engine: DownloadFiles (internal/downloader/downloader.go 51-141)

One goroutine per file.  The goroutine first skips the file when a size
hint is known (`ContentLength > 0`) and a local artifact of exactly that
byte length exists; otherwise it makes up to `maxRetries = 5` attempts,
each drawing the proxy list (an attempt-indexed oracle: `GetProxies` can
fail or return an empty list), filtering out proxies marked bad, picking
a random one, and running `downloadWithProxy`; an error whose text names
a refused connection or timeout marks the chosen proxy bad.  A file whose
retries are exhausted, or that finds all proxies marked bad, is appended
to `failedURLs`; a file aborted because the proxy list was unavailable or
empty only sends to the error channel, whose contents are merely logged.
`DownloadFiles` returns an error exactly when `failedURLs` is non-empty. -/

/-- Download file descriptor: the URL, the expected size hint
(`ContentLength`) and the `os.Stat` size of whatever currently sits at
the resolved output path. -/
structure FileJob where
  url : String
  contentLength : Int
  localSize : Option Int
deriving DecidableEq, Repr

/-- Result of one `downloadWithProxy` call as the retry loop sees it:
success, or an error whose text does/does not contain "connection
refused" or "timeout" (the mark-bad test). -/
inductive DlRes where
  | ok
  | err (markBad : Bool)
deriving DecidableEq, Repr

/-- What attempt `i` of a file's retry loop finds: `GetProxies` failing,
or a proxy list together with the random index drawn and the download
result for the chosen proxy. -/
inductive AttemptEv where
  | proxiesErr
  | proxies (l : List String) (pick : Nat) (res : DlRes)
deriving DecidableEq, Repr

/-- Terminal state of one file's goroutine. -/
inductive FileOutcome where
  | skippedLocal
  | downloaded
  | proxyUnavailable
  | allProxiesBad
  | retriesExhausted
deriving DecidableEq, Repr

/-- Whether the outcome is appended to `failedURLs` (exhausted retries or
every proxy marked bad). -/
def FileOutcome.isFailedURL : FileOutcome → Bool
  | .allProxiesBad => true
  | .retriesExhausted => true
  | _ => false

/-- Whether the goroutine ended without the file being fetched or already
present. -/
def FileOutcome.notRetrieved : FileOutcome → Bool
  | .skippedLocal => false
  | .downloaded => false
  | _ => true

/-- Retry loop of one file's goroutine; `bad` is the bad-proxy set on
entry and is threaded through (it is shared between goroutines in the
source; the model serializes them). -/
def dlLoop (evs : Nat → AttemptEv) : Nat → Nat → List String → FileOutcome × List String
  | 0, _, bad => (.retriesExhausted, bad)
  | fuel + 1, i, bad =>
      match evs i with
      | .proxiesErr => (.proxyUnavailable, bad)
      | .proxies l pick res =>
          if l.isEmpty then (.proxyUnavailable, bad)
          else
            let avail := l.filter (fun p => !bad.contains p)
            if avail.isEmpty then (.allProxiesBad, bad)
            else
              let chosen := avail.getD (pick % avail.length) ""
              match res with
              | .ok => (.downloaded, bad)
              | .err markBad =>
                  dlLoop evs fuel (i + 1) (if markBad then chosen :: bad else bad)

/-- Goroutine body for one file: the local skip check, then the retry
loop with `maxRetries = 5`. -/
def downloadFileTask (f : FileJob) (evs : Nat → AttemptEv) (bad : List String) :
    FileOutcome × List String :=
  if f.contentLength > 0 ∧ f.localSize = some f.contentLength then (.skippedLocal, bad)
  else dlLoop evs 5 0 bad

/-- Outcomes of all files, threading the shared bad-proxy set. -/
def downloadOutcomes (evs : Nat → Nat → AttemptEv) :
    List FileJob → Nat → List String → List FileOutcome
  | [], _, _ => []
  | f :: rest, i, bad =>
      let r := downloadFileTask f (evs i) bad
      r.1 :: downloadOutcomes evs rest (i + 1) r.2

/-- Body of `DownloadFiles`: run every file's goroutine and return an
error exactly when `failedURLs` is non-empty — drained channel errors are
only logged. -/
def DownloadFiles (files : List FileJob) (evs : Nat → Nat → AttemptEv) :
    List FileOutcome × Bool :=
  let os := downloadOutcomes evs files 0 []
  (os, os.any FileOutcome.isFailedURL)

/-- Claim C5 counterexample: a single file whose first attempt finds the
proxy list empty is never retrieved, yet its goroutine only sends to the
logged error channel and does not append to `failedURLs`, so
`DownloadFiles` returns nil — against the claim that a non-nil error is
returned whenever some resource could not be retrieved. -/
theorem downloadfiles_nil_error_on_unretrieved_file :
    DownloadFiles [⟨"u1", 10, none⟩] (fun _ _ => .proxies [] 0 (.err false)) =
      ([.proxyUnavailable], false) ∧
    FileOutcome.notRetrieved .proxyUnavailable = true := by
  constructor
  · rfl
  · rfl

/-- Claim C5, amended: `DownloadFiles` returns a non-nil error exactly
when at least one file exhausted its 5 attempts or found every proxy
marked bad (the two cases appended to `failedURLs`); a file aborted
because the proxy list could not be obtained or was empty is only logged
and does not make the aggregate fail.  No file aborts the others: every
file of the input list gets its own outcome. -/
theorem downloadfiles_error_iff_failed (files : List FileJob) (evs : Nat → Nat → AttemptEv) :
    ((DownloadFiles files evs).2 = true ↔
      ∃ o ∈ (DownloadFiles files evs).1, o.isFailedURL = true) ∧
    (DownloadFiles files evs).1.length = files.length := by
  constructor
  · unfold DownloadFiles
    exact List.any_eq_true
  · unfold DownloadFiles
    show (downloadOutcomes evs files 0 []).length = files.length
    generalize 0 = i
    generalize ([] : List String) = bad
    induction files generalizing i bad with
    | nil => rfl
    | cons f rest ih =>
        simp only [downloadOutcomes, List.length_cons]
        rw [ih]

/-! ## Depth enumeration: GenerateURLs depth branch (internal/cmdutils/utils.go 112-199)

Goroutine body for one (pair, market code, day) depth resource.  Checks,
in source order: the local-presence skip (`--skip-exists`), the
`--skip-download` skip, then the `CheckFileOnline` probe; a 403/404
answer writes a zero-byte placeholder file at the resolved output path,
any other non-200 answer does nothing, a 200 answer appends the URL with
the reported Content-Length.  Returns the appended `FileInfo` entries and
the local file size at the path afterwards.  Both skip branches append
the URL with `ContentLength: 0` without consulting the probe. -/

/-- Entry of the URL list built by `GenerateURLs`. -/
structure FileInfo where
  url : String
  contentLength : Int
deriving DecidableEq, Repr

/-- Depth goroutine body of `GenerateURLs` for one resource. -/
def generateDepthOne (skipIfExists skipDownload : Bool) (url : String)
    (localSize : Option Int) (probe : Option (Nat × Int)) :
    List FileInfo × Option Int :=
  if skipIfExists ∧ localSize.isSome then ([⟨url, 0⟩], localSize)
  else if skipDownload then ([⟨url, 0⟩], localSize)
  else
    match probe with
    | none => ([], localSize)
    | some (statusCode, contentLength) =>
        if statusCode ≠ 200 then
          if statusCode = 403 ∨ statusCode = 404 then ([], some 0)
          else ([], localSize)
        else ([⟨url, contentLength⟩], localSize)

/-- Claim C9 counterexample: on a later run with skip-locally-present
enabled, the zero-byte placeholder written for an absent depth resource
is enqueued again with size hint 0 and the downloader, whose skip check
requires a positive `ContentLength`, runs its full retry loop for it (the
origin keeps answering 403, so all 5 attempts fail) — the resource is not
probed again but it is handed to the downloader again, against the claim
that it is neither probed nor downloaded again. -/
theorem depth_placeholder_redownloaded :
    generateDepthOne true false "d1" (some 0) none = ([⟨"d1", 0⟩], some 0) ∧
    downloadFileTask ⟨"d1", 0, some 0⟩ (fun _ => .proxies ["p1"] 0 (.err false)) [] =
      (.retriesExhausted, []) ∧
    FileOutcome.retriesExhausted.isFailedURL = true := by
  refine ⟨rfl, ?_, rfl⟩
  rfl

/-- Claim C9, amended: a 403 or 404 probe answer for a depth resource
writes a zero-byte placeholder at the resolved output path and enqueues
nothing, and a later run with skip-locally-present never consults the
probe for a locally present resource (the result is the same for every
probe oracle); the resource is, however, still enqueued with size hint 0
and passed to the downloader again. -/
theorem depth_placeholder_semantics (url : String) (cl : Int) (statusCode : Nat)
    (h43 : statusCode = 403 ∨ statusCode = 404) :
    generateDepthOne true false url none (some (statusCode, cl)) = ([], some 0) ∧
    (∀ (sz : Int) (skipDownload : Bool) (p1 p2 : Option (Nat × Int)),
      generateDepthOne true skipDownload url (some sz) p1 =
        generateDepthOne true skipDownload url (some sz) p2) ∧
    (∀ sz : Int, generateDepthOne true false url (some sz) none = ([⟨url, 0⟩], some sz)) := by
  refine ⟨?_, ?_, ?_⟩
  · have hne : statusCode ≠ 200 := by
      rcases h43 with h | h <;> omega
    simp [generateDepthOne, hne, h43]
  · intro sz skipDownload p1 p2
    simp [generateDepthOne]
  · intro sz
    simp [generateDepthOne]

/-- Claim C9 witness: the amended behaviour at a concrete resource — a
404 probe writes the placeholder, and the next skip-exists run treats the
placeholder as locally present identically for two different probe
oracles. -/
theorem depth_placeholder_semantics_witness :
    generateDepthOne true false "d2" none (some (404, 7)) = ([], some 0) ∧
    generateDepthOne true false "d2" (some 0) none =
      generateDepthOne true false "d2" (some 0) (some (200, 55)) :=
  ⟨(depth_placeholder_semantics "d2" 7 404 (Or.inr rfl)).1,
    (depth_placeholder_semantics "d2" 7 404 (Or.inr rfl)).2.1 0 false none (some (200, 55))⟩

/-- Claim C8: evaluation of the second enumerate-then-download run at a
locally present depth resource.  With skip-locally-present enabled,
`GenerateURLs` resolves a resource whose 42-byte artifact already exists
by enqueueing it with `ContentLength: 0` (not its correct size), and the
downloader's skip check — which requires `ContentLength > 0` — therefore
never fires for it: the goroutine runs its retry loop and performs a
fresh network GET (outcome `downloaded`), so the second run does not
perform zero network downloads.  The last part shows the skip check is
unreachable for every file enqueued with size hint 0. -/
theorem skip_exists_second_run_still_downloads :
    generateDepthOne true false "t1" (some 42) (some (200, 42)) = ([⟨"t1", 0⟩], some 42) ∧
    downloadFileTask ⟨"t1", 0, some 42⟩ (fun _ => .proxies ["q1"] 0 .ok) [] =
      (.downloaded, []) ∧
    (∀ (u : String) (sz : Int) (evs : Nat → AttemptEv) (bad : List String),
      downloadFileTask ⟨u, 0, sz⟩ evs bad = dlLoop evs 5 0 bad) := by
  refine ⟨rfl, rfl, ?_⟩
  intro u sz evs bad
  simp [downloadFileTask]

/-! ## Proxy validation: checkProxy / checkProxies (src/README.md 265-340)

`checkProxy` normalizes a socks4 scheme to socks5, issues a GET to the
IP-echo endpoint through the candidate, and accepts exactly when the
whitespace-trimmed response body equals the host portion of the
candidate's own address (the text before the first colon after the
scheme prefix).  Any error along the way is "not working", never fatal.
`checkProxies` validates all candidates concurrently and collects the
accepted ones.  The oracle `resp p` is the body the echo service returns
through proxy `p`, or `none` for any failure. -/

/-- Replace the first occurrence of `pat` in a character list. -/
def replaceOnceAux (pat rep : List Char) : List Char → List Char
  | [] => []
  | c :: rest =>
      if pat.isPrefixOf (c :: rest) then rep ++ (c :: rest).drop pat.length
      else c :: replaceOnceAux pat rep rest

/-- Go `strings.Replace(s, pat, rep, 1)`: replace the first occurrence of
`pat`, if any. -/
def goReplaceOnce (s pat rep : String) : String :=
  ⟨replaceOnceAux pat.data rep.data s.data⟩

/-- Go `strings.TrimPrefix`. -/
def goTrimPrefix (s p : String) : String :=
  if p.data.isPrefixOf s.data then ⟨s.data.drop p.data.length⟩ else s

/-- Go `strings.TrimSpace` (over the ASCII whitespace relevant to the
echo bodies). -/
def goTrimSpace (s : String) : String :=
  ⟨((s.data.dropWhile Char.isWhitespace).reverse.dropWhile Char.isWhitespace).reverse⟩

/-- Host portion of a (socks5-normalized) proxy URL, as computed by
`strings.Split(strings.TrimPrefix(proxyURL, "socks5://"), ":")[0]` — the
text up to the first colon after stripping the scheme prefix. -/
def proxyIP (proxyURL : String) : String :=
  ⟨(goTrimPrefix proxyURL "socks5://").data.takeWhile (fun c => c ≠ ':')⟩

/-- `checkProxy`: normalize the scheme, then accept exactly when the GET
through the candidate succeeded and the trimmed body equals the host
portion of the candidate's own address; every failure is `false`. -/
def checkProxy (proxyURL : String) (resp : Option String) : Bool :=
  let u := goReplaceOnce proxyURL "socks4://" "socks5://"
  match resp with
  | none => false
  | some body => goTrimSpace body == proxyIP u

/-- `checkProxies`: validate every candidate and keep the accepted ones
(the source appends them in completion order; membership is what the
working set means). -/
def checkProxies (proxies : List String) (resp : String → Option String) : List String :=
  proxies.filter (fun p => checkProxy p (resp p))

/-- Claim C4: given two candidates of which the first echoes exactly the
host portion of its own (socks5-normalized) address and the second echoes
something else, the working set contains precisely the first; and in
general a candidate with a successful echo is accepted exactly when the
trimmed body is byte-for-byte the host portion of its own address. -/
theorem proxy_validation_pass (p1 p2 b1 b2 : String) (resp : String → Option String)
    (h1 : resp p1 = some b1) (h2 : resp p2 = some b2)
    (hb1 : goTrimSpace b1 = proxyIP (goReplaceOnce p1 "socks4://" "socks5://"))
    (hb2 : goTrimSpace b2 ≠ proxyIP (goReplaceOnce p2 "socks4://" "socks5://")) :
    (∀ q, q ∈ checkProxies [p1, p2] resp ↔ q = p1) ∧
    (∀ (p body : String), checkProxy p (some body) = true ↔
      goTrimSpace body = proxyIP (goReplaceOnce p "socks4://" "socks5://")) := by
  have hgen : ∀ (p body : String), checkProxy p (some body) = true ↔
      goTrimSpace body = proxyIP (goReplaceOnce p "socks4://" "socks5://") := by
    intro p body
    unfold checkProxy
    exact beq_iff_eq
  have hc1 : checkProxy p1 (resp p1) = true := by
    rw [h1]
    exact (hgen p1 b1).mpr hb1
  have hc2 : checkProxy p2 (resp p2) = false := by
    rw [h2]
    cases hb : checkProxy p2 (some b2)
    · rfl
    · exact absurd ((hgen p2 b2).mp hb) hb2
  refine ⟨?_, hgen⟩
  intro q
  unfold checkProxies
  rw [List.mem_filter]
  constructor
  · rintro ⟨hm, hp⟩
    rcases List.mem_cons.mp hm with rfl | hm2
    · rfl
    · rcases List.mem_singleton.mp hm2 with rfl
      rw [hc2] at hp
      cases hp
  · rintro rfl
    exact ⟨List.mem_cons_self _ _, hc1⟩

/-- Claim C4 witness: a socks5 proxy that echoes its own host and a
socks4 proxy (normalized to socks5 for the check) that echoes a foreign
address — only the first survives the pass. -/
theorem proxy_validation_pass_witness :
    ("socks5://1.2.3.4:1080" ∈
      checkProxies ["socks5://1.2.3.4:1080", "socks4://5.6.7.8:1080"]
        (fun p => if p = "socks5://1.2.3.4:1080" then some "1.2.3.4" else some "9.9.9.9")) ∧
    ("socks4://5.6.7.8:1080" ∉
      checkProxies ["socks5://1.2.3.4:1080", "socks4://5.6.7.8:1080"]
        (fun p => if p = "socks5://1.2.3.4:1080" then some "1.2.3.4" else some "9.9.9.9")) := by
  have h := proxy_validation_pass "socks5://1.2.3.4:1080" "socks4://5.6.7.8:1080"
    "1.2.3.4" "9.9.9.9"
    (fun p => if p = "socks5://1.2.3.4:1080" then some "1.2.3.4" else some "9.9.9.9")
    (by simp) (by simp) (by decide) (by decide)
  constructor
  · exact (h.1 "socks5://1.2.3.4:1080").mpr rfl
  · intro hm
    have := (h.1 "socks4://5.6.7.8:1080").mp hm
    exact absurd this (by decide)

/-! ## Database swap: MoveTempDatabase (internal/cmdutils/utils.go 234-279)

State of the three paths involved: the live database `dbPath`, the backup
`dbPath + BackupSuffix` and the temporary database `TempDbPath`.  The
step sequence of the source: if a live file exists, rename it to the
backup path (a failure here returns at once, live file untouched); open
the temp file; create the destination (truncating); copy; sync; each of
open/create/copy/sync restores the backup over the live path — when a
backup file exists — before returning the error; finally the temp file is
removed, a failure there being only logged.  The recovery renames
themselves are modelled as succeeding (they rename a file just observed
by `os.Stat`). -/

/-- Content of a file in the swap model: a payload, the empty file
`os.Create` leaves, or a truncated partial copy. -/
inductive FileContent where
  | data (id : Nat)
  | blank
  | truncated
deriving DecidableEq, Repr

/-- The three paths `MoveTempDatabase` touches. -/
structure SwapFS where
  live : Option FileContent
  backup : Option FileContent
  temp : Option FileContent
deriving DecidableEq, Repr

/-- Which steps of the swap fail in a given run. -/
structure SwapFaults where
  renameFail : Bool
  openFail : Bool
  createFail : Bool
  copyFail : Bool
  syncFail : Bool
  removeFail : Bool
deriving DecidableEq, Repr

/-- Recovery step `os.Rename(backupPath, dbPath)`, guarded by
`os.Stat(backupPath)` succeeding. -/
def restoreBackup (fs : SwapFS) : SwapFS :=
  match fs.backup with
  | some b => { fs with live := some b, backup := none }
  | none => fs

/-- Steps of `MoveTempDatabase` after the backup rename. -/
def moveTempRest (fs : SwapFS) (flt : SwapFaults) : Bool × SwapFS :=
  if flt.openFail ∨ fs.temp.isNone then (true, restoreBackup fs)
  else if flt.createFail then (true, restoreBackup fs)
  else
    if flt.copyFail then (true, restoreBackup { fs with live := some .truncated })
    else
      let fsD : SwapFS := { fs with live := fs.temp }
      if flt.syncFail then (true, restoreBackup fsD)
      else (false, if flt.removeFail then fsD else { fsD with temp := none })

/-- Body of `MoveTempDatabase`: back up an existing live file, then run
the open/create/copy/sync/remove sequence.  Returns (error returned?,
final state of the three paths). -/
def MoveTempDatabase (fs : SwapFS) (flt : SwapFaults) : Bool × SwapFS :=
  match fs.live with
  | some c =>
      if flt.renameFail then (true, fs)
      else moveTempRest { live := none, backup := some c, temp := fs.temp } flt
  | none => moveTempRest fs flt

/-- Claim C7: when a live database exists and the backup rename succeeds,
the swap returns without error exactly when opening the temp database,
creating the destination, copying and syncing all succeed; on success the
live path holds the temp database's content, and on any failure among
those steps the previous live content is restored from the backup and an
error is returned. -/
theorem movetempdatabase_restore_semantics (fs : SwapFS) (flt : SwapFaults)
    (c t : FileContent) (hlive : fs.live = some c) (htemp : fs.temp = some t)
    (hren : flt.renameFail = false) :
    ((MoveTempDatabase fs flt).1 = false ↔
      (flt.openFail = false ∧ flt.createFail = false ∧
        flt.copyFail = false ∧ flt.syncFail = false)) ∧
    ((MoveTempDatabase fs flt).1 = false → (MoveTempDatabase fs flt).2.live = some t) ∧
    ((MoveTempDatabase fs flt).1 = true → (MoveTempDatabase fs flt).2.live = some c) := by
  obtain ⟨lv, bk, tp⟩ := fs
  obtain ⟨rf, o, cr, cp, sy, rm⟩ := flt
  simp only at hlive htemp hren
  subst hlive htemp hren
  cases o <;> cases cr <;> cases cp <;> cases sy <;> cases rm <;>
    simp [MoveTempDatabase, moveTempRest, restoreBackup]

/-- Claim C7 witness: a concrete swap whose copy step fails — the
previous live content `data 1` is restored and the error is returned. -/
theorem movetempdatabase_restore_semantics_witness :
    (MoveTempDatabase ⟨some (.data 1), none, some (.data 2)⟩
        ⟨false, false, false, true, false, false⟩).2.live = some (FileContent.data 1) :=
  (movetempdatabase_restore_semantics ⟨some (.data 1), none, some (.data 2)⟩
      ⟨false, false, false, true, false, false⟩ (.data 1) (.data 2) rfl rfl rfl).2.2
    (by decide)
